import Mathlib

/-!
Verification of the two analysis pipelines of this repository:
* `gwas_sampleSize_WorldMap.py` (pipeline B: sample-size world map), and
* `PubmedCitations_SeqCost_Trend.py` (pipeline A: citation/cost trend).

Machine floats of the scripts are modelled by exact rationals `ℚ` (for
data values) and by `ℝ` where a logarithm appears; counts are `ℕ`/`ℤ`.
-/

/-! ## Pipeline B: gwas_sampleSize_WorldMap.py -/

/-- Line 39: `data['index'].replace('Korea, South', 'South Korea')`.
`Series.replace` with scalar arguments replaces cells equal to the
pattern, applied elementwise to the name column before aggregation. -/
def replace_korea (s : String) : String :=
  if s = "Korea, South" then "South Korea" else s

/-- Line 79: `aggregated_data.loc[aggregated_data['index'] == 'United States', 'index']
= 'United States of America'`, applied to the aggregated table's name
column after aggregation (and before the merge). -/
def rename_us (s : String) : String :=
  if s = "United States" then "United States of America" else s

/-- Line 42: `data.groupby('index').agg({'N': 'sum'})`: one output row per
distinct name, carrying the sum of the `N` values of the rows with that
name.  (pandas sorts the group keys; every later use is keyed by name, so
the embedding lists the groups in first-occurrence order of `dedup`.) -/
def aggregate (rows : List (String × ℚ)) : List (String × ℚ) :=
  ((rows.map Prod.fst).dedup).map
    (fun k => (k, ((rows.filter (fun r => r.1 = k)).map Prod.snd).sum))

/-- Lines 57-71: `categorize_sample_size`, the chain of strict `>` tests in
the source's order. -/
def categorize_sample_size (n : ℚ) : String :=
  if n > 1000000 then ">1 million"
  else if n > 100000 then "100k-1M"
  else if n > 5000 then "5k-100k"
  else if n > 500 then "501-5k"
  else if n > 100 then "101-500"
  else if n > 0 then "1-100"
  else "0"

/-- The seven possible return values of `categorize_sample_size`, in the
order of the source's tests. -/
def numeric_labels : List String :=
  [">1 million", "100k-1M", "5k-100k", "501-5k", "101-500", "1-100", "0"]

/-- Lines 45-54 and 75-77: the keys of the `categories` dict, in
declaration order; `pd.Categorical(..., categories=categories.keys(),
ordered=True)` makes this list the total order on the category enum
(earlier in the list = smaller in the enum order). -/
def category_order : List String :=
  [">1 million", "100k-1M", "5k-100k", "501-5k", "101-500", "1-100", "0", "No Data"]

/-- Rank of a label in the ordered categorical of lines 75-77: its index in
the declared category list. -/
def catRank (s : String) : ℕ :=
  category_order.indexOf s

/-- Line 87: a country that the left merge left without a category gets the
literal `No Data` (`fillna('No Data')`); a matched country keeps the
category computed from its aggregated total. -/
def categorize_opt : Option ℚ → String
  | none => "No Data"
  | some n => categorize_sample_size n

/-- Lines 39, 42, 74, 79: the aggregated name→total table exactly as the
script builds it: Korea fix on the raw rows, then `groupby ... sum`, then
the United-States rename applied to the aggregated keys. -/
def pipelineAggregates (rows : List (String × ℚ)) : List (String × ℚ) :=
  (aggregate (rows.map (fun r => (replace_korea r.1, r.2)))).map
    (fun p => (rename_us p.1, p.2))

/-- The spec's Normalizer (§4.5): one two-entry correction table. -/
def normalize_name (s : String) : String :=
  rename_us (replace_korea s)

/-- Modelled from the spec (§4.5-§4.6): the architecture the spec
describes, with the full normalization table applied as a stage before
aggregation.  Kept separate from `pipelineAggregates` (the code's order)
so the two can be compared. -/
def specAggregates (rows : List (String × ℚ)) : List (String × ℚ) :=
  aggregate (rows.map (fun r => (normalize_name r.1, r.2)))

/-- Lines 82-87: left merge of the region names onto the aggregated table
by name equality, then `fillna('No Data')` on the category column.  Each
region keeps its position and receives the category of the aggregate with
exactly its name, or `No Data` when no aggregate matches. -/
def join_fill (regions : List String) (cats : List (String × String)) :
    List (String × String) :=
  regions.map (fun r => (r, (cats.lookup r).getD "No Data"))

/-- Lines 74-79: the aggregated table with its category column, keyed by
the final (post-rename) names — the right-hand side of the merge. -/
def categorized (rows : List (String × ℚ)) : List (String × String) :=
  (pipelineAggregates rows).map (fun p => (p.1, categorize_sample_size p.2))

/-! ## Pipeline A: PubmedCitations_SeqCost_Trend.py -/

/-- Line 35: the PubMed base URL. -/
def base_url : String := "https://pubmed.ncbi.nlm.nih.gov"

/-- Line 49: the query string combining the synonym terms with `OR`,
restricted to one publication year. -/
def build_query (year : ℤ) (query_terms : List String) : String :=
  "(" ++ String.intercalate (" OR ") query_terms ++ ")[Title/Abstract] AND "
    ++ toString year ++ "[Date - Publication]"

/-- What the HTML parse of lines 52-54 extracts from a fetched page:
`soup.find('div', {'class': 'results-amount'})` either finds no
`results-amount` div (`resultsDiv = none`), or finds one without a `span`
child (`some none`), or finds one whose span has the given text
(`some (some txt)`). -/
structure PubmedResponse where
  resultsDiv : Option (Option String)

/-- Line 56, `results_info.split()[0]`: the first whitespace-separated
token; `none` models the `IndexError` Python raises on an all-whitespace
string. -/
def first_token (s : String) : Option String :=
  ((s.split Char.isWhitespace).filter (fun t => t ≠ "")).head?

/-- Line 56: `int(results_info.split()[0].replace(',', ''))`; `none`
models the exception `int(...)` raises when the token is not a number. -/
def parse_count (txt : String) : Option ℤ :=
  match first_token txt with
  | some tok => (tok.replace (",") ("")).toInt?
  | none => none

/-- Lines 38-58, `get_citations`: the network is modelled as an oracle
from URL to parsed page.  The `some 0` branch is the source's
`else: return 0`; `none` would mean an uncaught exception, which the
marker-present branch alone can produce. -/
def get_citations (fetch : String → PubmedResponse) (year : ℤ)
    (query_terms : List String) : Option ℤ :=
  let url := base_url ++ "/?term=" ++ build_query year query_terms
  match (fetch url).resultsDiv with
  | some (some txt) => parse_count txt
  | some none => some 0
  | none => some 0

/-- Lines 77-79: `np.log10(v) if v > 0 else 0` applied to a citation
count. -/
noncomputable def log_transform (c : ℕ) : ℝ :=
  if 0 < c then Real.logb 10 (c : ℝ) else 0

/-- Lines 73-74: `pd.to_datetime(..., errors='coerce').dt.year` followed by
`groupby('Year')['Cost per Mb'].mean()`.  A row arrives as its parsed
year (`none` = NaT, the coerced parse failure) paired with its cost;
`groupby` drops the NaT rows and yields one row per remaining year with
the arithmetic mean of the costs.  (pandas sorts the group keys; all
claims are keyed by year, so groups are listed in first-occurrence
order.) -/
def load_cost_series (rows : List (Option ℤ × ℚ)) : List (ℤ × ℚ) :=
  let valid := rows.filterMap (fun r => r.1.map (fun y => (y, r.2)))
  ((valid.map Prod.fst).dedup).map
    (fun y =>
      let grp := (valid.filter (fun p => p.1 = y)).map Prod.snd
      (y, grp.sum / (grp.length : ℚ)))

/-- Line 82: `np.log10` applied to each grouped mean cost. -/
noncomputable def log_cost_series (rows : List (Option ℤ × ℚ)) : List (ℤ × ℝ) :=
  (load_cost_series rows).map (fun p => (p.1, Real.logb 10 (p.2 : ℝ)))

/-- Python's `min` over a nonempty collection (the `[]` case never occurs
in the source, where `min` would raise; the default is irrelevant to the
theorems, which assume a nonempty input). -/
def listMin : List ℚ → ℚ
  | [] => 0
  | x :: xs => xs.foldl min x

/-- Python's `max` over a nonempty collection, as for `listMin`. -/
def listMax : List ℚ → ℚ
  | [] => 0
  | x :: xs => xs.foldl max x

/-- `np.arange(start, stop, step)` for a positive step: the
`⌈(stop − start)/step⌉` values `start + k·step`, `k = 0, 1, …`. -/
def arange (start stop step : ℚ) : List ℚ :=
  (List.range (⌈(stop - start) / step⌉).toNat).map
    (fun (k : ℕ) => start + (k : ℚ) * step)

/-- Lines 97-99 and 111-113: tick computation for an axis.  The source
instantiates `step = 1/2`, writing the bounds as
`np.floor(min(values) * 2) / 2` — which equals `⌊min/step⌋·step` — and
`np.ceil(max(values) * 2) / 2 = ⌈max/step⌉·step`, then calls
`np.arange(lower, upper + step, step)`; the spec's §4.4 contract carries
the step as a parameter. -/
def compute_ticks (values : List ℚ) (step : ℚ) : List ℚ :=
  arange (⌊listMin values / step⌋ * step)
    (⌈listMax values / step⌉ * step + step) step

/-- The instantiation used on both axes of the source (`step = 0.5`). -/
def axis_ticks (values : List ℚ) : List ℚ :=
  compute_ticks values (1/2)

/-! ## Theorems -/

/-- C1: for every real total value ≥ 0, `categorize_sample_size` (and hence
the categorize stage) returns exactly one of its 7 labels, pairwise
distinct; the absent case receives the downstream `No Data` fill; the band
boundaries are strict: `categorize(100000) = "5k-100k"` and
`categorize(100001) = "100k-1M"`, with the bands tested in the source's
fixed order. -/
theorem categorize_total_strict_bounds :
    (∀ n : ℚ, 0 ≤ n → categorize_opt (some n) ∈ numeric_labels)
    ∧ categorize_opt none = "No Data"
    ∧ numeric_labels.Nodup
    ∧ categorize_opt (some 100000) = "5k-100k"
    ∧ categorize_opt (some 100001) = "100k-1M" := by
  refine ⟨?_, rfl, by decide, ?_, ?_⟩
  · intro n _
    simp only [categorize_opt, categorize_sample_size]
    split_ifs <;> decide
  · norm_num [categorize_opt, categorize_sample_size]
  · norm_num [categorize_opt, categorize_sample_size]

/-- C1 witness: a sample size of 250 lands in one of the 7 labels. -/
theorem categorize_total_strict_bounds_witness :
    categorize_opt (some 250) ∈ numeric_labels :=
  categorize_total_strict_bounds.1 250 (by norm_num)

/-- C10: `categorize_sample_size` is total over all real inputs: every
input ≤ 0, strictly negative values included, takes the final else branch
and gets the literal `0` category. -/
theorem categorize_nonpositive_is_zero :
    ∀ n : ℚ, n ≤ 0 → categorize_sample_size n = "0" := by
  intro n h
  simp only [categorize_sample_size]
  split_ifs <;> first | rfl | linarith

/-- C10 witness: the strictly negative input −5 gets the `0` category. -/
theorem categorize_nonpositive_is_zero_witness :
    categorize_sample_size (-5) = "0" :=
  categorize_nonpositive_is_zero (-5) (by norm_num)

/-- C9 counterexample: in the ordered enum the code declares
(`pd.Categorical` with the category list in dict order, so
`>1 million` is the least element and `0` the greatest numeric one), the
category rank is not monotone nondecreasing in the total value:
0 ≤ 2000000, but rank(categorize(0)) = 6 > 0 = rank(categorize(2000000)). -/
theorem categorize_rank_not_monotone :
    (0 : ℚ) ≤ 2000000
    ∧ ¬ catRank (categorize_sample_size 0)
        ≤ catRank (categorize_sample_size 2000000) := by
  constructor
  · norm_num
  · decide

/-- C9 amended: `categorize_sample_size` is a deterministic function and is
monotone with respect to the category scale — but in the enum order the
code declares (highest band first), the rank is antitone: for all reals
0 ≤ v1 ≤ v2 the rank of v2's category is ≤ the rank of v1's category
(equivalently, it is nondecreasing in the reversed, magnitude order); and
an entity with zero observations gets the `No Data` category. -/
theorem categorize_rank_antitone :
    (∀ v1 v2 : ℚ, 0 ≤ v1 → v1 ≤ v2 →
      catRank (categorize_sample_size v2) ≤ catRank (categorize_sample_size v1))
    ∧ categorize_opt none = "No Data" := by
  refine ⟨?_, rfl⟩
  intro v1 v2 _ h12
  simp only [categorize_sample_size]
  split_ifs <;> first | decide | linarith

/-- C9 witness: 50 ≤ 600, and the rank of 600's category (`501-5k`) is ≤
the rank of 50's category (`1-100`) in the declared enum order. -/
theorem categorize_rank_antitone_witness :
    catRank (categorize_sample_size 600) ≤ catRank (categorize_sample_size 50) :=
  categorize_rank_antitone.1 50 600 (by norm_num) (by norm_num)

/-- C3 counterexample: the two name corrections are not one normalization
table applied before aggregation.  The United-States rename runs after
`groupby`, so an input containing both spellings aggregates into two
separate rows (both finally named `United States of America`), while the
spec's normalize-then-aggregate order would produce the single row
`("United States of America", 30)`. -/
theorem normalize_single_table_cex :
    pipelineAggregates [("United States", 10), ("United States of America", 20)]
      ≠ specAggregates [("United States", 10), ("United States of America", 20)] := by
  have h1 : pipelineAggregates
      [("United States", 10), ("United States of America", 20)]
      = [("United States of America", 10), ("United States of America", 20)] := by
    simp +decide [pipelineAggregates, aggregate, replace_korea, rename_us]
  have h2 : specAggregates
      [("United States", 10), ("United States of America", 20)]
      = [("United States of America", 30)] := by
    simp +decide [specAggregates, aggregate, normalize_name, replace_korea,
      rename_us]
    norm_num
  rw [h1, h2]
  simp

/-- C3 amended: the composite of the two corrections behaves as the fixed
two-entry table — `Korea, South` maps to `South Korea`, `United States`
to `United States of America`, and every other name passes through
unchanged — but the two are applied at different stages: the Korea
correction before aggregation (line 39) and the United-States correction
after aggregation (line 79), not as one pre-aggregation normalization
table. -/
theorem normalize_name_table :
    normalize_name ("Korea, South") = "South Korea"
    ∧ normalize_name ("United States") = "United States of America"
    ∧ (∀ s : String, s ≠ "Korea, South" → s ≠ "United States" →
        normalize_name s = s) := by
  refine ⟨rfl, rfl, ?_⟩
  intro s h1 h2
  simp [normalize_name, replace_korea, rename_us, h1, h2]

/-- C3 witness: an uncorrected name passes through unchanged. -/
theorem normalize_name_table_witness :
    normalize_name ("France") = "France" :=
  normalize_name_table.2.2 ("France") (by decide) (by decide)

/-- Looking up a key that is not in the key list of a keyed table built
over that key list finds nothing. -/
theorem lookup_map_pair_none {α β : Type} [BEq α] [LawfulBEq α]
    (keys : List α) (f : α → β) (k : α) (hk : k ∉ keys) :
    List.lookup k (keys.map (fun x => (x, f x))) = none := by
  induction keys with
  | nil => rfl
  | cons a as ih =>
    have hne : (k == a) = false :=
      beq_eq_false_iff_ne.mpr (fun h => hk (by simp [h]))
    simp only [List.map_cons, List.lookup, hne]
    exact ih (fun hm => hk (List.mem_cons_of_mem _ hm))

/-- C4: `aggregate` groups by name and sums the `N` field — the three
observations France 100, France 50, Germany 0 yield exactly the rows
France 150 and Germany 0; a name present with total zero is looked up as
`some 0`, while a name with no observations is absent from the mapping
(lookup `none`), keeping absent distinct from a present zero. -/
theorem aggregate_sums_and_absent :
    aggregate [("France", 100), ("France", 50), ("Germany", 0)]
      = [("France", 150), ("Germany", 0)]
    ∧ List.lookup ("Germany")
        (aggregate [("France", 100), ("France", 50), ("Germany", 0)]) = some 0
    ∧ (∀ (rows : List (String × ℚ)) (name : String),
        name ∉ rows.map Prod.fst → List.lookup name (aggregate rows) = none) := by
  have hconc : aggregate [("France", 100), ("France", 50), ("Germany", 0)]
      = [("France", 150), ("Germany", 0)] := by
    simp +decide [aggregate]
    norm_num
  refine ⟨hconc, ?_, ?_⟩
  · rw [hconc]
    simp +decide [List.lookup]
  · intro rows name h
    have h2 : name ∉ (rows.map Prod.fst).dedup := by
      simpa [List.mem_dedup] using h
    exact lookup_map_pair_none ((rows.map Prod.fst).dedup)
      (fun k => ((rows.filter (fun r => r.1 = k)).map Prod.snd).sum) name h2

/-- C4 witness: a country with no observations is absent from the
aggregate mapping. -/
theorem aggregate_sums_and_absent_witness :
    List.lookup ("Mali") (aggregate [("France", 100)]) = none :=
  aggregate_sums_and_absent.2.2 [("France", 100)] ("Mali") (by decide)

/-- C5: the merge-plus-fill stage is a left join on exact
(post-normalization) name equality: the joined table covers exactly the
region list, a region whose name matches an aggregate receives that
aggregate's category, and a region with no match receives the explicit
`No Data` category; on regions France, Germany, Mali with the aggregates
of the France/Germany observations, Mali gets `No Data`. -/
theorem join_left_no_data :
    (∀ (regions : List String) (cats : List (String × String)),
      ((join_fill regions cats).map Prod.fst = regions)
      ∧ (∀ r c, r ∈ regions → List.lookup r cats = some c →
          (r, c) ∈ join_fill regions cats)
      ∧ (∀ r, r ∈ regions → List.lookup r cats = none →
          (r, "No Data") ∈ join_fill regions cats))
    ∧ join_fill ["France", "Germany", "Mali"]
        (categorized [("France", 100), ("France", 50), ("Germany", 0)])
      = [("France", "101-500"), ("Germany", "0"), ("Mali", "No Data")] := by
  constructor
  · intro regions cats
    refine ⟨?_, ?_, ?_⟩
    · simp [join_fill, Function.comp_def]
    · intro r c hr hc
      exact List.mem_map.mpr ⟨r, hr, by simp [hc]⟩
    · intro r hr hc
      exact List.mem_map.mpr ⟨r, hr, by simp [hc]⟩
  · have hagg : pipelineAggregates [("France", 100), ("France", 50), ("Germany", 0)]
        = [("France", 150), ("Germany", 0)] := by
      simp +decide [pipelineAggregates, aggregate, replace_korea, rename_us]
      norm_num
    have hcat : categorized [("France", 100), ("France", 50), ("Germany", 0)]
        = [("France", "101-500"), ("Germany", "0")] := by
      rw [categorized, hagg]
      norm_num [categorize_sample_size]
    rw [hcat]
    simp +decide [join_fill, List.lookup]

/-- C5 witness: a region matching no aggregate is mapped, explicitly, to
`No Data`. -/
theorem join_left_no_data_witness :
    ("Mali", "No Data") ∈ join_fill ["Mali"] [] :=
  (join_left_no_data.1 ["Mali"] []).2.2 ("Mali") (by decide) (by decide)

/-- C2: for every year and every list of query terms, whenever the
`results-amount` marker is absent from the fetched page — the parse found
no such div, or found one without a span — `get_citations` returns the
defined fallback 0 (`some 0`), not an error. -/
theorem get_citations_absent_marker_zero :
    ∀ (fetch : String → PubmedResponse) (year : ℤ) (query_terms : List String),
      (fetch (base_url ++ "/?term=" ++ build_query year query_terms)).resultsDiv = none
        ∨ (fetch (base_url ++ "/?term=" ++ build_query year query_terms)).resultsDiv
            = some none →
      get_citations fetch year query_terms = some 0 := by
  intro f year terms h
  unfold get_citations
  rcases h with h | h <;> simp [h]

/-- C2 witness: a page with no `results-amount` div yields the count 0. -/
theorem get_citations_absent_marker_zero_witness :
    get_citations (fun _ => PubmedResponse.mk none) 2020 ["multiomics"] = some 0 :=
  get_citations_absent_marker_zero (fun _ => PubmedResponse.mk none) 2020
    ["multiomics"] (Or.inl rfl)

/-- C6: the citation log-transform sends a zero count to 0 and a positive
count `c` to `log10 c`; in particular the counts 1 and 0 both map to 0,
so they are indistinguishable after the transform. -/
theorem log_transform_zero_floor :
    (∀ c : ℕ, log_transform c = if c = 0 then 0 else Real.logb 10 (c : ℝ))
    ∧ log_transform 1 = 0 ∧ log_transform 0 = 0 := by
  refine ⟨?_, ?_, ?_⟩
  · intro c
    by_cases h : c = 0
    · simp [log_transform, h]
    · simp [log_transform, h, Nat.pos_of_ne_zero]
  · simp [log_transform, Real.logb_one]
  · simp [log_transform]

/-- Numeric bounds on log10 of 2: 0.3 ≤ log10 2 ≤ 0.302, from
10³ ≤ 2¹⁰ and 2⁵⁰⁰ ≤ 10¹⁵¹. -/
theorem logb_two_bounds :
    (3 : ℝ)/10 ≤ Real.logb 10 2 ∧ Real.logb 10 2 ≤ (302 : ℝ)/1000 := by
  have hlog10 : (0 : ℝ) < Real.log 10 := Real.log_pos (by norm_num)
  have hlow : (3 : ℝ) * Real.log 10 ≤ 10 * Real.log 2 := by
    have h := Real.log_le_log (x := (10 : ℝ)^(3 : ℕ)) (by positivity)
      (y := (2 : ℝ)^(10 : ℕ)) (by norm_num)
    rwa [Real.log_pow, Real.log_pow, Nat.cast_ofNat, Nat.cast_ofNat] at h
  have hhigh : (500 : ℝ) * Real.log 2 ≤ 151 * Real.log 10 := by
    have h := Real.log_le_log (x := (2 : ℝ)^(500 : ℕ)) (by positivity)
      (y := (10 : ℝ)^(151 : ℕ)) (by norm_num)
    rwa [Real.log_pow, Real.log_pow, Nat.cast_ofNat, Nat.cast_ofNat] at h
  constructor
  · rw [Real.logb, le_div_iff₀ hlog10]
    linarith
  · rw [Real.logb, div_le_iff₀ hlog10]
    linarith

/-- log10 of `1/50` equals `log10 2 − 2`. -/
theorem logb_one_fiftieth :
    Real.logb 10 ((1 : ℝ)/50) = Real.logb 10 2 - 2 := by
  have h100 : Real.logb 10 ((100 : ℝ)) = 2 := by
    have h : (100 : ℝ) = 10 ^ (2 : ℕ) := by norm_num
    rw [h, Real.logb_pow, Real.logb_self_eq_one (by norm_num)]
    norm_num
  have h2 : (1 : ℝ)/50 = 2/100 := by norm_num
  rw [h2, Real.logb_div (by norm_num) (by norm_num), h100]

/-- C7: the cost loader silently drops every row whose date failed to
parse; on the rows (2020-01-01, 0.01) and (2020-06-01, 0.03) — both dates
parsing to year 2020 — it yields the single record (2020, 0.02), whose
log10 value is within 10⁻³ of −1.699. -/
theorem load_cost_series_drop_mean_log :
    (∀ (c : ℚ) (rows : List (Option ℤ × ℚ)),
      load_cost_series ((none, c) :: rows) = load_cost_series rows)
    ∧ load_cost_series [(some 2020, 1/100), (some 2020, 3/100)] = [(2020, 1/50)]
    ∧ log_cost_series [(some 2020, 1/100), (some 2020, 3/100)]
        = [(2020, Real.logb 10 ((1 : ℝ)/50))]
    ∧ |Real.logb 10 ((1 : ℝ)/50) - (-(1699/1000))| ≤ 1/1000 := by
  have hmean : load_cost_series [(some 2020, 1/100), (some 2020, 3/100)]
      = [(2020, 1/50)] := by
    simp +decide [load_cost_series]
    norm_num
  refine ⟨?_, hmean, ?_, ?_⟩
  · intro c rows
    simp [load_cost_series]
  · rw [log_cost_series, hmean]
    norm_num
  · rw [logb_one_fiftieth]
    have h := logb_two_bounds
    rw [abs_le]
    constructor <;> linarith [h.1, h.2]

/-- Folding `min` never rises above the initial value. -/
theorem foldl_min_le (xs : List ℚ) (a : ℚ) : xs.foldl min a ≤ a := by
  induction xs generalizing a with
  | nil => simp
  | cons x xs ih =>
    simp only [List.foldl_cons]
    exact le_trans (ih (min a x)) (min_le_left a x)

/-- Folding `max` never falls below the initial value. -/
theorem le_foldl_max (xs : List ℚ) (a : ℚ) : a ≤ xs.foldl max a := by
  induction xs generalizing a with
  | nil => simp
  | cons x xs ih =>
    simp only [List.foldl_cons]
    exact le_trans (le_max_left a x) (ih (max a x))

/-- On a nonempty list the minimum is at most the maximum. -/
theorem listMin_le_listMax (values : List ℚ) (h : values ≠ []) :
    listMin values ≤ listMax values := by
  cases values with
  | nil => exact absurd rfl h
  | cons x xs =>
    simp only [listMin, listMax]
    exact le_trans (foldl_min_le xs x) (le_foldl_max xs x)

/-- C8: for every nonempty value list and positive step, the tick sequence
starts at the floored minimum `⌊min/step⌋·step`, contains the ceiled
maximum `⌈max/step⌉·step`, has constant spacing `step` between
consecutive elements (hence is monotonically increasing), and is nonempty
even for a single-element or constant input. -/
theorem compute_ticks_spec :
    ∀ (values : List ℚ) (step : ℚ), values ≠ [] → 0 < step →
      (compute_ticks values step).head?
          = some ((⌊listMin values / step⌋ : ℚ) * step)
      ∧ ((⌈listMax values / step⌉ : ℚ) * step) ∈ compute_ticks values step
      ∧ List.Chain' (fun a b => b = a + step) (compute_ticks values step)
      ∧ compute_ticks values step ≠ [] := by
  intro values step hne hstep
  have hstep0 : step ≠ 0 := ne_of_gt hstep
  set m := listMin values / step with hm
  set M := listMax values / step with hM
  have hmM : m ≤ M := by
    rw [hm, hM]
    gcongr
    exact listMin_le_listMax values hne
  have hab : ⌊m⌋ ≤ ⌈M⌉ := by
    have h1 : (⌊m⌋ : ℚ) ≤ m := Int.floor_le m
    have h2 : (M : ℚ) ≤ (⌈M⌉ : ℚ) := Int.le_ceil M
    exact_mod_cast le_trans h1 (le_trans hmM h2)
  have hj : (0 : ℤ) ≤ ⌈M⌉ - ⌊m⌋ := sub_nonneg.mpr hab
  have hcount : ((⌈M⌉ : ℚ) * step + step - (⌊m⌋ : ℚ) * step) / step
      = ((⌈M⌉ - ⌊m⌋ + 1 : ℤ) : ℚ) := by
    field_simp
    ring
  have hn : ⌈((⌈M⌉ : ℚ) * step + step - (⌊m⌋ : ℚ) * step) / step⌉
      = ⌈M⌉ - ⌊m⌋ + 1 := by
    rw [hcount, Int.ceil_intCast]
  have hnt : (⌈M⌉ - ⌊m⌋ + 1).toNat = (⌈M⌉ - ⌊m⌋).toNat + 1 := by omega
  have hticks : compute_ticks values step
      = (List.range ((⌈M⌉ - ⌊m⌋).toNat + 1)).map
          (fun (k : ℕ) => (⌊m⌋ : ℚ) * step + (k : ℚ) * step) := by
    rw [compute_ticks, arange, ← hm, ← hM, hn, hnt]
  have hcast : (((⌈M⌉ - ⌊m⌋).toNat : ℕ) : ℚ) = (⌈M⌉ : ℚ) - (⌊m⌋ : ℚ) := by
    exact_mod_cast congrArg (fun z : ℤ => (z : ℚ)) (Int.toNat_of_nonneg hj)
  refine ⟨?_, ?_, ?_, ?_⟩
  · rw [hticks, List.range_succ_eq_map]
    simp
  · rw [hticks]
    refine List.mem_map.mpr ⟨(⌈M⌉ - ⌊m⌋).toNat,
      List.mem_range.mpr (Nat.lt_succ_self _), ?_⟩
    rw [hcast]
    ring
  · rw [hticks, List.chain'_map, List.chain'_range_succ]
    intro i _
    push_cast
    ring
  · rw [hticks]
    simp

/-- C8 witness: on the single-element input `[1.2]` with step `1/2` the
tick list is still nonempty. -/
theorem compute_ticks_spec_witness :
    compute_ticks [(6 : ℚ)/5] (1/2) ≠ [] :=
  (compute_ticks_spec [(6 : ℚ)/5] (1/2) (by decide) (by norm_num)).2.2.2
